import Mathlib

/-!
Shallow embedding of the currency-aware filtering, pagination and aggregation
core of the ExpenseTracker backend (src/controllers/Record.controller.js and
src/controllers/Category.controller.js).  Amounts are modelled as rationals;
JavaScript `Math.round(x * 100) / 100` is modelled as `round2` and
`Math.ceil` as `Int.ceil`.  Query-string parameters parsed with
`parseInt(x) || default` are modelled by `queryIntOr`, which reproduces the
JavaScript semantics that an absent value and a supplied `0` (both falsy)
fall back to the default.
-/

/-- The two supported currency codes: the `currency` column is
`ENUM('USD', 'KHR')` in the Record model. -/
inductive Currency where
  | USD : Currency
  | KHR : Currency
deriving DecidableEq, Repr

/-- String form of a currency code, as stored in the database. -/
def currencyStr : Currency → String
  | Currency.USD => "USD"
  | Currency.KHR => "KHR"

/-- EXCHANGE_RATES.USD_TO_KHR from both controllers: 1 USD = 4000 KHR. -/
def USD_TO_KHR : ℚ := 4000

/-- EXCHANGE_RATES.KHR_TO_USD from both controllers: 1 KHR = 0.00025 USD. -/
def KHR_TO_USD : ℚ := 0.00025

/-- convertToBaseCurrency from Record.controller.js: converts an amount to
USD for comparison purposes. -/
def convertToBaseCurrency (amount : ℚ) : Currency → ℚ
  | Currency.USD => amount
  | Currency.KHR => amount * KHR_TO_USD

/-- convertToUSD from Category.controller.js, textually the same conversion
helper as convertToBaseCurrency. -/
def convertToUSD (amount : ℚ) : Currency → ℚ
  | Currency.USD => amount
  | Currency.KHR => amount * KHR_TO_USD

/-- Conversion out of the base currency, as performed in getTop5Expenses for
a KHR display currency (`usdAmount * EXCHANGE_RATES.USD_TO_KHR`) and
trivially for USD.  This is the `fromBase` direction of the spec. -/
def fromBase (amountInUSD : ℚ) : Currency → ℚ
  | Currency.USD => amountInUSD
  | Currency.KHR => amountInUSD * USD_TO_KHR

/-- JavaScript `Math.round(x * 100) / 100`: round to two decimal places,
halves rounding up. -/
def round2 (q : ℚ) : ℚ := ((⌊q * 100 + 1/2⌋ : ℤ) : ℚ) / 100

lemma round2_sub_abs_le (q : ℚ) : |round2 q - q| ≤ 1/200 := by
  rw [round2, abs_le]
  have h1 : ((⌊q * 100 + 1/2⌋ : ℤ) : ℚ) ≤ q * 100 + 1/2 := Int.floor_le _
  have h2 : q * 100 + 1/2 - 1 < ((⌊q * 100 + 1/2⌋ : ℤ) : ℚ) := Int.sub_one_lt_floor _
  constructor <;> nlinarith

/-- A rational is a whole number of hundredths (an exact two-decimal value). -/
def TwoDec (q : ℚ) : Prop := ∃ k : ℤ, q = (k : ℚ) / 100

lemma TwoDec.zero : TwoDec 0 := ⟨0, by norm_num⟩

lemma TwoDec.add {a b : ℚ} (ha : TwoDec a) (hb : TwoDec b) : TwoDec (a + b) := by
  obtain ⟨k, hk⟩ := ha
  obtain ⟨m, hm⟩ := hb
  exact ⟨k + m, by rw [hk, hm]; push_cast; ring⟩

lemma round2_eq_self {q : ℚ} (h : TwoDec q) : round2 q = q := by
  obtain ⟨k, hk⟩ := h
  subst hk
  rw [round2]
  have h100 : ((k : ℚ) / 100) * 100 = (k : ℚ) := by field_simp
  rw [h100]
  have : ⌊(k : ℚ) + 1/2⌋ = k := by
    rw [Int.floor_eq_iff]
    constructor
    · norm_num
    · norm_num
  rw [this]

lemma round2_listSum_abs_le (l : List ℚ) :
    |(l.map round2).sum - l.sum| ≤ (l.length : ℚ) * (1/200) := by
  induction l with
  | nil => simp
  | cons a as ih =>
      have h1 := round2_sub_abs_le a
      have habs : |round2 a + (as.map round2).sum - (a + as.sum)| ≤
          |round2 a - a| + |(as.map round2).sum - as.sum| := by
        have : round2 a + (as.map round2).sum - (a + as.sum) =
            (round2 a - a) + ((as.map round2).sum - as.sum) := by ring
        rw [this]
        exact abs_add _ _
      simp only [List.map_cons, List.sum_cons, List.length_cons]
      calc |round2 a + (as.map round2).sum - (a + as.sum)|
          ≤ |round2 a - a| + |(as.map round2).sum - as.sum| := habs
        _ ≤ 1/200 + (as.length : ℚ) * (1/200) := add_le_add h1 ih
        _ = ((as.length : ℚ) + 1) * (1/200) := by ring
        _ = (((as.length + 1 : ℕ)) : ℚ) * (1/200) := by push_cast; ring

/-- C8: converting an amount from its native currency into the base currency
USD (convertToUSD) and back (fromBase) recovers the amount within 0.01 in the
stored unit; with the fixed rate pair 4000 and 0.00025 the round trip is in
fact exact.  The same holds for convertToBaseCurrency, the identical helper
in the Record controller. -/
theorem C8_roundtrip_conversion (a : ℚ) (c : Currency) :
    |fromBase (convertToUSD a c) c - a| ≤ 1/100 ∧
    |fromBase (convertToBaseCurrency a c) c - a| ≤ 1/100 := by
  have hexact : a * KHR_TO_USD * USD_TO_KHR = a := by
    rw [USD_TO_KHR, KHR_TO_USD]
    rw [show (0.00025 : ℚ) = 1/4000 by norm_num]
    ring
  cases c <;>
    simp [fromBase, convertToUSD, convertToBaseCurrency, hexact]

/-! ## Record listing amount filter (getAllRecords, Record.controller.js) -/

/-- A stored record as seen by the amount-range filter: its native currency
and its amount in that currency. -/
structure FilterRecord where
  amount : ℚ
  currency : Currency
deriving DecidableEq, Repr

/-- The amount-range predicate built by getAllRecords.  The supplied bounds
are first converted to USD via convertToBaseCurrency using the supplied
amountCurrency (defaulting to USD); the resulting where-condition is a
disjunction of a USD branch and a KHR branch whose bounds are the USD bounds
multiplied by EXCHANGE_RATES.USD_TO_KHR.  A missing bound leaves that side
of the range open; with no bound at all, no amount condition is emitted. -/
def matchesAmountFilter (minAmount maxAmount : Option ℚ)
    (amountCurrency : Option Currency) (r : FilterRecord) : Bool :=
  let minAmountUSD := minAmount.map
    (fun a => convertToBaseCurrency a (amountCurrency.getD Currency.USD))
  let maxAmountUSD := maxAmount.map
    (fun a => convertToBaseCurrency a (amountCurrency.getD Currency.USD))
  match minAmountUSD, maxAmountUSD with
  | some m, some M =>
      (decide (r.currency = Currency.USD) &&
        (decide (m ≤ r.amount) && decide (r.amount ≤ M))) ||
      (decide (r.currency = Currency.KHR) &&
        (decide (m * USD_TO_KHR ≤ r.amount) && decide (r.amount ≤ M * USD_TO_KHR)))
  | some m, none =>
      (decide (r.currency = Currency.USD) && decide (m ≤ r.amount)) ||
      (decide (r.currency = Currency.KHR) && decide (m * USD_TO_KHR ≤ r.amount))
  | none, some M =>
      (decide (r.currency = Currency.USD) && decide (r.amount ≤ M)) ||
      (decide (r.currency = Currency.KHR) && decide (r.amount ≤ M * USD_TO_KHR))
  | none, none => true

/-- Modelled from the words of the spec for comparison with the code: amount
is within the optional bounds. -/
def specWithinBounds (lo hi : Option ℚ) (a : ℚ) : Bool :=
  (match lo with
   | none => true
   | some b => decide (b ≤ a)) &&
  (match hi with
   | none => true
   | some b => decide (a ≤ b))

/-- Modelled from the words of the spec for comparison with the code: the
predicate is a disjunction of a USD branch comparing the native amount
against the USD-equivalent bounds and a KHR branch comparing it against
those bounds multiplied by the fixed rate 4000. -/
def specAmountPred (minUSD maxUSD : Option ℚ) (r : FilterRecord) : Bool :=
  (decide (r.currency = Currency.USD) && specWithinBounds minUSD maxUSD r.amount) ||
  (decide (r.currency = Currency.KHR) &&
    specWithinBounds (minUSD.map (fun b => b * USD_TO_KHR))
      (maxUSD.map (fun b => b * USD_TO_KHR)) r.amount)

/-- C1: the filter built with minAmount=100, amountCurrency=USD matches a
record stored natively in KHR with amount 400000 and rejects a KHR record
of 399999.99; and in general, whenever at least one bound is supplied, the
predicate is exactly the disjunction of a USD branch against the
USD-equivalent bounds and a KHR branch against those bounds times 4000. -/
theorem C1_amount_filter_currency_branches :
    matchesAmountFilter (some 100) none (some Currency.USD) ⟨400000, Currency.KHR⟩ = true ∧
    matchesAmountFilter (some 100) none (some Currency.USD)
      ⟨(399999.99 : ℚ), Currency.KHR⟩ = false ∧
    (∀ (m M : ℚ) (ac : Option Currency) (r : FilterRecord),
      (matchesAmountFilter (some m) (some M) ac r =
        specAmountPred
          (some (convertToBaseCurrency m (ac.getD Currency.USD)))
          (some (convertToBaseCurrency M (ac.getD Currency.USD))) r) ∧
      (matchesAmountFilter (some m) none ac r =
        specAmountPred
          (some (convertToBaseCurrency m (ac.getD Currency.USD))) none r) ∧
      (matchesAmountFilter none (some M) ac r =
        specAmountPred none
          (some (convertToBaseCurrency M (ac.getD Currency.USD))) r)) := by
  refine ⟨?_, ?_, ?_⟩
  · norm_num [matchesAmountFilter, convertToBaseCurrency, USD_TO_KHR, KHR_TO_USD]
  · norm_num [matchesAmountFilter, convertToBaseCurrency, USD_TO_KHR, KHR_TO_USD]
    decide
  · intro m M ac r
    refine ⟨?_, ?_, ?_⟩ <;>
      simp [matchesAmountFilter, specAmountPred, specWithinBounds, Bool.and_assoc]

/-! ## Pagination (getAllRecords, Record.controller.js) -/

/-- JavaScript `parseInt(q) || dflt`: an absent value parses to NaN (falsy)
and a supplied 0 is falsy, so both fall back to the default. -/
def queryIntOr (q : Option ℤ) (dflt : ℤ) : ℤ :=
  match q with
  | none => dflt
  | some v => if v = 0 then dflt else v

/-- totalPages from the listing response: `Math.ceil(total / pageSize)`. -/
def listTotalPages (total : ℕ) (pageSize : ℤ) : ℤ :=
  ⌈(total : ℚ) / (pageSize : ℚ)⌉

/-- offset passed to findAll: `(page - 1) * pageSize`. -/
def listOffset (page pageSize : ℤ) : ℤ := (page - 1) * pageSize

/-- The pagination part of the listing response meta object. -/
structure ListMeta where
  totalItems : ℕ
  page : ℤ
  pageSize : ℤ
  totalPages : ℤ
deriving DecidableEq, Repr

/-- The meta object produced by getAllRecords for a given stored total and
the raw page / pageSize query values. -/
def recordListMeta (total : ℕ) (qPage qPageSize : Option ℤ) : ListMeta :=
  let page := queryIntOr qPage 1
  let pageSize := queryIntOr qPageSize 10
  ⟨total, page, pageSize, listTotalPages total pageSize⟩

/-- C5: for a non-negative total count and positive page size the listing
returns `totalPages = ceil(totalCount / pageSize)` (the definition of
listTotalPages) and `offset = (page - 1) * pageSize`; 23 items at page size
10 give 3 pages, 0 items give 0 pages, and totalPages is 0 exactly when the
total count is 0. -/
theorem C5_pagination_contract (total : ℕ) (ps page : ℤ) (hps : 0 < ps) :
    (listTotalPages total ps = 0 ↔ total = 0) ∧
    listOffset page ps = (page - 1) * ps ∧
    listTotalPages 23 10 = 3 ∧
    listTotalPages 0 ps = 0 := by
  refine ⟨⟨?_, ?_⟩, rfl, ?_, ?_⟩
  · intro h
    by_contra htot
    have hpos : 0 < total := Nat.pos_of_ne_zero htot
    have hq : (0 : ℚ) < (total : ℚ) / (ps : ℚ) := by
      apply div_pos
      · exact_mod_cast hpos
      · exact_mod_cast hps
    have := Int.ceil_pos.mpr hq
    rw [listTotalPages] at h
    omega
  · intro h
    subst h
    simp [listTotalPages]
  · rw [listTotalPages]
    norm_num [Int.ceil_eq_iff]
  · simp [listTotalPages]

theorem C5_pagination_contract_witness :
    (0 : ℤ) < 10 ∧
    ((listTotalPages 23 10 = 0 ↔ (23 : ℕ) = 0) ∧
     listOffset 7 10 = (7 - 1) * 10 ∧
     listTotalPages 23 10 = 3 ∧
     listTotalPages 0 10 = 0) :=
  ⟨by norm_num, C5_pagination_contract 23 10 7 (by norm_num)⟩

/-- C6 counterexample: a listing request that supplies pageSize = 0 is not
rejected; parseInt gives the falsy 0, the default 10 is used, and a normal
meta object is returned (23 items yield 3 pages at the default size). -/
theorem C6_counterexample_pageSize_zero_not_rejected :
    recordListMeta 23 none (some 0) = ⟨23, 1, 10, 3⟩ := by
  simp [recordListMeta, queryIntOr, listTotalPages]
  norm_num [Int.ceil_eq_iff]

/-- C6 amended: a supplied pageSize of 0 is silently replaced by the default
10 rather than rejected, so the page count is never computed with a zero
divisor; the effective page size is never 0 for any query value. -/
theorem C6_pageSize_zero_defaults_to_ten (total : ℕ) (qp : Option ℤ) :
    recordListMeta total qp (some 0) = recordListMeta total qp none ∧
    (recordListMeta total qp (some 0)).pageSize = 10 ∧
    (∀ q : Option ℤ, queryIntOr q 10 ≠ 0) := by
  refine ⟨rfl, rfl, ?_⟩
  intro q
  match q with
  | none => simp [queryIntOr]
  | some v =>
      by_cases hv : v = 0 <;> simp [queryIntOr, hv]

/-! ## Monthly summary (getMonthlySummary, Category.controller.js) -/

/-- A category row as included with a fetched record: id, name, color. -/
structure SCategory where
  id : ℕ
  name : String
  color : String
deriving DecidableEq, Repr

/-- A fetched record as consumed by the monthly summary: amount, native
currency, and the optional included category. -/
structure SRecord where
  amount : ℚ
  currency : Currency
  category : Option SCategory
deriving DecidableEq, Repr

/-- JS `record.Category?.id || null`: the grouping key of a record; an id of
0 would be falsy and also map to null. -/
def recKey (r : SRecord) : Option ℕ :=
  match r.category with
  | some c => if c.id = 0 then none else some c.id
  | none => none

/-- JS `record.Category?.name || 'Uncategorized'`. -/
def recCatName (r : SRecord) : String :=
  match r.category with
  | some c => if c.name = "" then "Uncategorized" else c.name
  | none => "Uncategorized"

/-- JS `record.Category?.color || '#808080'`. -/
def recCatColor (r : SRecord) : String :=
  match r.category with
  | some c => if c.color = "" then "#808080" else c.color
  | none => "#808080"

/-- The contribution of a record to a USD total:
`record.currency === 'USD' ? parseFloat(record.amount) : 0`. -/
def usdPart (r : SRecord) : ℚ := if r.currency = Currency.USD then r.amount else 0

/-- The contribution of a record to a KHR total. -/
def khrPart (r : SRecord) : ℚ := if r.currency = Currency.KHR then r.amount else 0

/-- One value of the categoryMap: running native-currency subtotals and
record count for one category key. -/
structure CatAcc where
  categoryId : Option ℕ
  categoryName : String
  categoryColor : String
  totalUSD : ℚ
  totalKHR : ℚ
  recordCount : ℕ
deriving DecidableEq, Repr

/-- The `categoryData.totalUSD += ...; totalKHR += ...; recordCount += 1`
update applied to the first entry with the given key. -/
def addToCat (k : Option ℕ) (u v : ℚ) : List CatAcc → List CatAcc
  | [] => []
  | e :: es =>
      if e.categoryId = k then
        { e with totalUSD := e.totalUSD + u, totalKHR := e.totalKHR + v,
                 recordCount := e.recordCount + 1 } :: es
      else e :: addToCat k u v es

/-- One iteration of the `records.forEach` loop that fills the categoryMap:
insert a zero entry if the key is new (JS Map preserves insertion order),
then add this record to its entry. -/
def stepRecord (acc : List CatAcc) (r : SRecord) : List CatAcc :=
  let k := recKey r
  let acc1 :=
    if acc.any (fun e => decide (e.categoryId = k)) then acc
    else acc ++ [⟨k, recCatName r, recCatColor r, 0, 0, 0⟩]
  addToCat k (usdPart r) (khrPart r) acc1

/-- The categoryMap after processing all records, in insertion order. -/
def buildCategoryMap (records : List SRecord) : List CatAcc :=
  records.foldl stepRecord []

/-- totals.USD before rounding: the sum of the native USD amounts. -/
def totalsUSD (records : List SRecord) : ℚ := (records.map usdPart).sum

/-- totals.KHR before rounding: the sum of the native KHR amounts. -/
def totalsKHR (records : List SRecord) : ℚ := (records.map khrPart).sum

/-- grandTotalUSD: the rounded per-currency totals combined into one USD
value via convertToUSD. -/
def grandTotalUSD (records : List SRecord) : ℚ :=
  convertToUSD (round2 (totalsUSD records)) Currency.USD +
  convertToUSD (round2 (totalsKHR records)) Currency.KHR

/-- One categoryBreakdown entry of the monthly summary response. -/
structure BEntry where
  categoryId : Option ℕ
  categoryName : String
  categoryColor : String
  totalUSD : ℚ
  totalKHR : ℚ
  recordCount : ℕ
  percentage : ℚ
deriving DecidableEq, Repr

/-- Building one breakdown entry: the category subtotals are rounded to two
decimals first, combined into USD, and the percentage of the grand total is
computed (0 when the grand total is not positive) and rounded. -/
def toBEntry (grand : ℚ) (c : CatAcc) : BEntry :=
  let tU := round2 c.totalUSD
  let tK := round2 c.totalKHR
  let categoryTotalUSD := convertToUSD tU Currency.USD + convertToUSD tK Currency.KHR
  let percentage := if 0 < grand then categoryTotalUSD / grand * 100 else 0
  ⟨c.categoryId, c.categoryName, c.categoryColor, tU, tK, c.recordCount, round2 percentage⟩

/-- The combined USD value used as the descending sort key of the breakdown. -/
def bConverted (e : BEntry) : ℚ :=
  convertToUSD e.totalUSD Currency.USD + convertToUSD e.totalKHR Currency.KHR

/-- The breakdown sort comparison: descending by combined USD value. -/
def bdRel (a b : BEntry) : Prop := bConverted b ≤ bConverted a

instance : DecidableRel bdRel :=
  fun a b => inferInstanceAs (Decidable (bConverted b ≤ bConverted a))

instance : IsTotal BEntry bdRel := ⟨fun a b => le_total (bConverted b) (bConverted a)⟩

instance : IsTrans BEntry bdRel := ⟨fun _ _ _ hab hbc => le_trans hbc hab⟩

/-- The categoryBreakdown array: entries built from the categoryMap, then
sorted descending by combined USD value. -/
def categoryBreakdown (records : List SRecord) : List BEntry :=
  List.insertionSort bdRel
    ((buildCategoryMap records).map (toBEntry (grandTotalUSD records)))

/-- JavaScript Date leap year rule (Gregorian). -/
def isLeapYear (y : ℤ) : Bool := y % 4 == 0 && (y % 100 != 0 || y % 400 == 0)

/-- JS `new Date(year, month, 0).getDate()`: the number of days of the
1-based month in that year. -/
def daysInMonth (year month : ℤ) : ℕ :=
  if month = 2 then (if isLeapYear year then 29 else 28)
  else if month = 4 ∨ month = 6 ∨ month = 9 ∨ month = 11 then 30
  else 31

/-- The summary object of the monthly summary response. -/
structure MonthSummary where
  month : ℤ
  year : ℤ
  currency : String
  totalUSD : ℚ
  totalKHR : ℚ
  recordCount : ℕ
  avgUSD : ℚ
  avgKHR : ℚ
  isEmpty : Bool
deriving DecidableEq, Repr

/-- The summary part of getMonthlySummary: rounded per-currency totals,
record count, per-day averages over the days of the month, and the isEmpty
flag. -/
def monthSummaryOf (month year : ℤ) (currency : String)
    (records : List SRecord) : MonthSummary :=
  let tU := round2 (totalsUSD records)
  let tK := round2 (totalsKHR records)
  let days : ℚ := (daysInMonth year month : ℚ)
  ⟨month, year, currency, tU, tK, records.length,
   round2 (tU / days), round2 (tK / days), records.length == 0⟩

/-- The full monthly summary response body. -/
structure MonthlyResult where
  summary : MonthSummary
  breakdown : List BEntry
deriving DecidableEq, Repr

/-- getMonthlySummary: parse month and year with `parseInt(x) || current`,
validate the ranges before any query, then aggregate the (already fetched)
records of the selected month. -/
def getMonthlySummary (qMonth qYear : Option ℤ) (qCurrency : Option String)
    (nowMonth nowYear : ℤ) (records : List SRecord) :
    Except String MonthlyResult :=
  let month := queryIntOr qMonth nowMonth
  let year := queryIntOr qYear nowYear
  let currency := qCurrency.getD "ALL"
  if month < 1 ∨ 12 < month then Except.error "Month must be between 1 and 12"
  else if year < 2020 ∨ 2030 < year then
    Except.error "Year must be between 2020 and 2030"
  else Except.ok ⟨monthSummaryOf month year currency records,
                  categoryBreakdown records⟩

/-- C7 counterexample: a supplied month of 0 is outside 1..12, yet the
request is not rejected: `parseInt('0') || currentMonth` silently coerces
the falsy 0 to the current month (here 7), and a normal summary for month 7
is returned. -/
theorem C7_counterexample_month_zero_coerced :
    (getMonthlySummary (some 0) (some 2025) none 7 2025 []).toOption.map
      (fun res => res.summary.month) = some 7 := by
  norm_num [getMonthlySummary, queryIntOr, Except.toOption, monthSummaryOf]

/-- C7 amended: every supplied nonzero month outside 1..12 is rejected with
the descriptive month error, and every supplied nonzero year outside
2020..2030 (with the month check passing) is rejected with the descriptive
year error; the rejection is the same for every record set, so no record
query result can influence it.  A supplied value of 0 is excluded because
JavaScript treats it as falsy and silently replaces it by the current
month or year. -/
theorem C7_validation_rejects_out_of_range :
    (∀ (m : ℤ) (qy : Option ℤ) (qc : Option String) (nowM nowY : ℤ)
       (records : List SRecord),
       m ≠ 0 → (m < 1 ∨ 12 < m) →
       getMonthlySummary (some m) qy qc nowM nowY records =
         Except.error "Month must be between 1 and 12") ∧
    (∀ (y : ℤ) (qm : Option ℤ) (qc : Option String) (nowM nowY : ℤ)
       (records : List SRecord),
       y ≠ 0 → (y < 2020 ∨ 2030 < y) →
       1 ≤ queryIntOr qm nowM → queryIntOr qm nowM ≤ 12 →
       getMonthlySummary qm (some y) qc nowM nowY records =
         Except.error "Year must be between 2020 and 2030") := by
  constructor
  · intro m qy qc nowM nowY records hm0 hmr
    rw [getMonthlySummary]
    have hqm : queryIntOr (some m) nowM = m := by simp [queryIntOr, hm0]
    rw [hqm, if_pos hmr]
  · intro y qm qc nowM nowY records hy0 hyr hm1 hm2
    rw [getMonthlySummary]
    have hqy : queryIntOr (some y) nowY = y := by simp [queryIntOr, hy0]
    have hmok : ¬(queryIntOr qm nowM < 1 ∨ 12 < queryIntOr qm nowM) := by omega
    rw [if_neg hmok, hqy, if_pos hyr]

theorem C7_validation_rejects_out_of_range_witness :
    ((13 : ℤ) ≠ 0 ∧ ((13 : ℤ) < 1 ∨ (12 : ℤ) < 13) ∧
      getMonthlySummary (some 13) none none 7 2025 [] =
        Except.error "Month must be between 1 and 12") ∧
    ((2019 : ℤ) ≠ 0 ∧ ((2019 : ℤ) < 2020 ∨ (2030 : ℤ) < 2019) ∧
      getMonthlySummary none (some 2019) none 7 2025 [] =
        Except.error "Year must be between 2020 and 2030") := by
  constructor
  · refine ⟨by norm_num, by norm_num, ?_⟩
    exact C7_validation_rejects_out_of_range.1 13 none none 7 2025 []
      (by norm_num) (by norm_num)
  · refine ⟨by norm_num, by norm_num, ?_⟩
    exact C7_validation_rejects_out_of_range.2 2019 none none 7 2025 []
      (by norm_num) (by norm_num) (by norm_num [queryIntOr]) (by norm_num [queryIntOr])

/-! ### Lemmas about the categoryMap fold -/

lemma addToCat_sums (k : Option ℕ) (u v : ℚ) :
    ∀ l : List CatAcc, (∃ e ∈ l, e.categoryId = k) →
      ((addToCat k u v l).map (fun e => e.totalUSD)).sum =
        (l.map (fun e => e.totalUSD)).sum + u ∧
      ((addToCat k u v l).map (fun e => e.totalKHR)).sum =
        (l.map (fun e => e.totalKHR)).sum + v ∧
      ((addToCat k u v l).map (fun e => e.recordCount)).sum =
        (l.map (fun e => e.recordCount)).sum + 1 := by
  intro l
  induction l with
  | nil => intro hex; simp at hex
  | cons e es ih =>
      intro hex
      by_cases h : e.categoryId = k
      · refine ⟨?_, ?_, ?_⟩ <;> simp [addToCat, h] <;> ring
      · have hex' : ∃ x ∈ es, x.categoryId = k := by
          rcases hex with ⟨x, hx, hxk⟩
          rcases List.mem_cons.mp hx with h1 | h1
          · exact absurd (h1 ▸ hxk) h
          · exact ⟨x, h1, hxk⟩
        obtain ⟨s1, s2, s3⟩ := ih hex'
        refine ⟨?_, ?_, ?_⟩ <;> simp [addToCat, h, s1, s2, s3] <;> ring

lemma stepRecord_hasKey (acc : List CatAcc) (r : SRecord) :
    ∃ e ∈ (if acc.any (fun e => decide (e.categoryId = recKey r)) then acc
           else acc ++ [⟨recKey r, recCatName r, recCatColor r, 0, 0, 0⟩]),
      e.categoryId = recKey r := by
  by_cases h : acc.any (fun e => decide (e.categoryId = recKey r)) = true
  · rw [if_pos h]
    obtain ⟨e, he, hk⟩ := List.any_eq_true.mp h
    exact ⟨e, he, of_decide_eq_true hk⟩
  · rw [if_neg (by simpa using h)]
    refine ⟨⟨recKey r, recCatName r, recCatColor r, 0, 0, 0⟩, ?_, rfl⟩
    exact List.mem_append_right _ (List.mem_singleton_self _)

lemma stepRecord_sums (acc : List CatAcc) (r : SRecord) :
    ((stepRecord acc r).map (fun e => e.totalUSD)).sum =
      (acc.map (fun e => e.totalUSD)).sum + usdPart r ∧
    ((stepRecord acc r).map (fun e => e.totalKHR)).sum =
      (acc.map (fun e => e.totalKHR)).sum + khrPart r ∧
    ((stepRecord acc r).map (fun e => e.recordCount)).sum =
      (acc.map (fun e => e.recordCount)).sum + 1 := by
  rw [stepRecord]
  obtain ⟨s1, s2, s3⟩ :=
    addToCat_sums (recKey r) (usdPart r) (khrPart r) _ (stepRecord_hasKey acc r)
  refine ⟨?_, ?_, ?_⟩
  · rw [s1]
    by_cases h : acc.any (fun e => decide (e.categoryId = recKey r)) = true <;>
      simp [h]
  · rw [s2]
    by_cases h : acc.any (fun e => decide (e.categoryId = recKey r)) = true <;>
      simp [h]
  · rw [s3]
    by_cases h : acc.any (fun e => decide (e.categoryId = recKey r)) = true <;>
      simp [h]

lemma foldl_stepRecord_sums :
    ∀ (records : List SRecord) (acc : List CatAcc),
      (((records.foldl stepRecord acc).map (fun e => e.totalUSD)).sum =
        (acc.map (fun e => e.totalUSD)).sum + (records.map usdPart).sum) ∧
      (((records.foldl stepRecord acc).map (fun e => e.totalKHR)).sum =
        (acc.map (fun e => e.totalKHR)).sum + (records.map khrPart).sum) ∧
      (((records.foldl stepRecord acc).map (fun e => e.recordCount)).sum =
        (acc.map (fun e => e.recordCount)).sum + records.length) := by
  intro records
  induction records with
  | nil => intro acc; simp
  | cons r rs ih =>
      intro acc
      obtain ⟨i1, i2, i3⟩ := ih (stepRecord acc r)
      obtain ⟨s1, s2, s3⟩ := stepRecord_sums acc r
      refine ⟨?_, ?_, ?_⟩ <;>
        simp only [List.foldl_cons, List.map_cons, List.sum_cons, List.length_cons]
      · rw [i1, s1]; ring
      · rw [i2, s2]; ring
      · rw [i3, s3]; omega

lemma buildCategoryMap_sums (records : List SRecord) :
    ((buildCategoryMap records).map (fun e => e.totalUSD)).sum = totalsUSD records ∧
    ((buildCategoryMap records).map (fun e => e.totalKHR)).sum = totalsKHR records ∧
    ((buildCategoryMap records).map (fun e => e.recordCount)).sum = records.length := by
  obtain ⟨h1, h2, h3⟩ := foldl_stepRecord_sums records []
  exact ⟨by simpa [buildCategoryMap, totalsUSD] using h1,
         by simpa [buildCategoryMap, totalsKHR] using h2,
         by simpa [buildCategoryMap] using h3⟩

lemma twoDec_usdPart {r : SRecord} (h : TwoDec r.amount) : TwoDec (usdPart r) := by
  rw [usdPart]
  split
  · exact h
  · exact TwoDec.zero

lemma twoDec_khrPart {r : SRecord} (h : TwoDec r.amount) : TwoDec (khrPart r) := by
  rw [khrPart]
  split
  · exact h
  · exact TwoDec.zero

lemma twoDec_listSum : ∀ l : List ℚ, (∀ q ∈ l, TwoDec q) → TwoDec l.sum := by
  intro l
  induction l with
  | nil => intro _; simpa using TwoDec.zero
  | cons a as ih =>
      intro h
      rw [List.sum_cons]
      exact (h a (List.mem_cons_self a as)).add
        (ih (fun q hq => h q (List.mem_cons_of_mem a hq)))

lemma addToCat_twoDec (k : Option ℕ) {u v : ℚ} (hu : TwoDec u) (hv : TwoDec v) :
    ∀ l : List CatAcc, (∀ e ∈ l, TwoDec e.totalUSD ∧ TwoDec e.totalKHR) →
      ∀ e ∈ addToCat k u v l, TwoDec e.totalUSD ∧ TwoDec e.totalKHR := by
  intro l
  induction l with
  | nil => intro _ e he; simp [addToCat] at he
  | cons a as ih =>
      intro h e he
      by_cases hk : a.categoryId = k
      · rw [addToCat, if_pos hk] at he
        rcases List.mem_cons.mp he with h1 | h1
        · rw [h1]
          exact ⟨(h a (List.mem_cons_self a as)).1.add hu,
                 (h a (List.mem_cons_self a as)).2.add hv⟩
        · exact h e (List.mem_cons_of_mem a h1)
      · rw [addToCat, if_neg hk] at he
        rcases List.mem_cons.mp he with h1 | h1
        · rw [h1]; exact h a (List.mem_cons_self a as)
        · exact ih (fun x hx => h x (List.mem_cons_of_mem a hx)) e h1

lemma stepRecord_twoDec {acc : List CatAcc} {r : SRecord} (hr : TwoDec r.amount)
    (h : ∀ e ∈ acc, TwoDec e.totalUSD ∧ TwoDec e.totalKHR) :
    ∀ e ∈ stepRecord acc r, TwoDec e.totalUSD ∧ TwoDec e.totalKHR := by
  rw [stepRecord]
  apply addToCat_twoDec _ (twoDec_usdPart hr) (twoDec_khrPart hr)
  by_cases hany : acc.any (fun e => decide (e.categoryId = recKey r)) = true
  · simpa [hany] using h
  · intro e he
    rw [if_neg (by simpa using hany)] at he
    rcases List.mem_append.mp he with h1 | h1
    · exact h e h1
    · rw [List.mem_singleton.mp h1]
      exact ⟨TwoDec.zero, TwoDec.zero⟩

lemma buildCategoryMap_twoDec :
    ∀ (records : List SRecord) (acc : List CatAcc),
      (∀ r ∈ records, TwoDec r.amount) →
      (∀ e ∈ acc, TwoDec e.totalUSD ∧ TwoDec e.totalKHR) →
      ∀ e ∈ records.foldl stepRecord acc, TwoDec e.totalUSD ∧ TwoDec e.totalKHR := by
  intro records
  induction records with
  | nil => intro acc _ hacc; simpa using hacc
  | cons r rs ih =>
      intro acc hrec hacc
      rw [List.foldl_cons]
      exact ih (stepRecord acc r)
        (fun x hx => hrec x (List.mem_cons_of_mem r hx))
        (stepRecord_twoDec (hrec r (List.mem_cons_self r rs)) hacc)

lemma round2_nonneg {q : ℚ} (h : 0 ≤ q) : 0 ≤ round2 q := by
  rw [round2]
  have h0 : (0 : ℚ) ≤ q * 100 + 1/2 := by nlinarith
  have := Int.floor_nonneg.mpr h0
  positivity

lemma totalsUSD_nonneg {records : List SRecord} (h : ∀ r ∈ records, 0 ≤ r.amount) :
    0 ≤ totalsUSD records := by
  apply List.sum_nonneg
  intro x hx
  obtain ⟨r, hr, hrx⟩ := List.mem_map.mp hx
  rw [← hrx, usdPart]
  split
  · exact h r hr
  · exact le_refl 0

lemma totalsKHR_nonneg {records : List SRecord} (h : ∀ r ∈ records, 0 ≤ r.amount) :
    0 ≤ totalsKHR records := by
  apply List.sum_nonneg
  intro x hx
  obtain ⟨r, hr, hrx⟩ := List.mem_map.mp hx
  rw [← hrx, khrPart]
  split
  · exact h r hr
  · exact le_refl 0

lemma grandTotalUSD_nonneg {records : List SRecord}
    (h : ∀ r ∈ records, 0 ≤ r.amount) : 0 ≤ grandTotalUSD records := by
  rw [grandTotalUSD, convertToUSD, convertToUSD]
  have h1 := round2_nonneg (totalsUSD_nonneg h)
  have h2 := round2_nonneg (totalsKHR_nonneg h)
  have hk : (0 : ℚ) ≤ KHR_TO_USD := by rw [KHR_TO_USD]; norm_num
  nlinarith

/-- The entries of a categoryMap accumulator whose key is null. -/
def noneEntries (l : List CatAcc) : List CatAcc :=
  l.filter (fun e => decide (e.categoryId = none))

lemma noneEntries_nil : noneEntries [] = [] := rfl

lemma noneEntries_eq_nil_iff (l : List CatAcc) :
    noneEntries l = [] ↔ ∀ e ∈ l, e.categoryId ≠ none := by
  rw [noneEntries, List.filter_eq_nil_iff]
  constructor
  · intro h e he
    simpa using h e he
  · intro h e he
    simpa using h e he

lemma noneEntries_addToCat_some (k : ℕ) (u v : ℚ) :
    ∀ l : List CatAcc, noneEntries (addToCat (some k) u v l) = noneEntries l := by
  intro l
  induction l with
  | nil => rfl
  | cons e es ih =>
      by_cases h : e.categoryId = some k
      · rw [addToCat, if_pos h]
        rw [noneEntries, noneEntries, List.filter_cons, List.filter_cons]
        simp only [h]
        rfl
      · rw [addToCat, if_neg h]
        rw [noneEntries, noneEntries, List.filter_cons, List.filter_cons]
        by_cases hn : e.categoryId = none <;>
          simp only [hn] <;>
          simpa [noneEntries] using ih

lemma noneEntries_addToCat_none_nil (u v : ℚ) :
    ∀ l : List CatAcc, noneEntries l = [] →
      noneEntries (addToCat none u v l) = [] := by
  intro l
  induction l with
  | nil => intro _; rfl
  | cons e es ih =>
      intro h
      have he : e.categoryId ≠ none :=
        (noneEntries_eq_nil_iff _).mp h e (List.mem_cons_self e es)
      have hes : noneEntries es = [] := by
        rw [noneEntries_eq_nil_iff] at h ⊢
        exact fun x hx => h x (List.mem_cons_of_mem e hx)
      rw [addToCat, if_neg he]
      rw [noneEntries, List.filter_cons]
      simp only [he]
      simpa [noneEntries] using ih hes

lemma noneEntries_addToCat_none_cons (u v : ℚ) :
    ∀ (l : List CatAcc) (e : CatAcc) (es : List CatAcc),
      noneEntries l = e :: es →
      noneEntries (addToCat none u v l) =
        { e with totalUSD := e.totalUSD + u, totalKHR := e.totalKHR + v,
                 recordCount := e.recordCount + 1 } :: es := by
  intro l
  induction l with
  | nil => intro e es h; simp [noneEntries] at h
  | cons a as ih =>
      intro e es h
      by_cases ha : a.categoryId = none
      · have hstep : noneEntries (a :: as) = a :: noneEntries as := by
          simp [noneEntries, List.filter_cons, ha]
        rw [hstep] at h
        injection h with h1 h2
        subst h1
        rw [addToCat, if_pos ha]
        have hstep2 : noneEntries
            ({ a with totalUSD := a.totalUSD + u, totalKHR := a.totalKHR + v,
                      recordCount := a.recordCount + 1 } :: as) =
            { a with totalUSD := a.totalUSD + u, totalKHR := a.totalKHR + v,
                     recordCount := a.recordCount + 1 } :: noneEntries as := by
          simp [noneEntries, List.filter_cons, ha]
        rw [hstep2, h2]
      · have hstep : noneEntries (a :: as) = noneEntries as := by
          simp [noneEntries, List.filter_cons, ha]
        rw [hstep] at h
        rw [addToCat, if_neg ha]
        have hstep2 : noneEntries (a :: addToCat none u v as) =
            noneEntries (addToCat none u v as) := by
          simp [noneEntries, List.filter_cons, ha]
        rw [hstep2]
        exact ih e es h

/-- Shape of the synthetic Uncategorized bucket. -/
def synthNone (e : CatAcc) : Prop :=
  e.categoryName = "Uncategorized" ∧ e.categoryColor = "#808080"

lemma stepRecord_noneEntries_some {acc : List CatAcc} {r : SRecord} {k : ℕ}
    (hk : recKey r = some k) :
    noneEntries (stepRecord acc r) = noneEntries acc := by
  simp only [stepRecord, hk]
  by_cases hany : acc.any (fun e => decide (e.categoryId = some k)) = true
  · rw [if_pos hany, noneEntries_addToCat_some]
  · rw [if_neg (by simpa using hany), noneEntries_addToCat_some]
    rw [noneEntries, List.filter_append]
    have hz : List.filter (fun e => decide (e.categoryId = none))
        [(⟨some k, recCatName r, recCatColor r, 0, 0, 0⟩ : CatAcc)] = [] := by
      simp
    rw [hz, List.append_nil, noneEntries]

lemma stepRecord_noneEntries_none {acc : List CatAcc} {r : SRecord}
    (hk : recKey r = none) (hcat : r.category = none) :
    (noneEntries acc = [] →
      noneEntries (stepRecord acc r) =
        [⟨none, "Uncategorized", "#808080", usdPart r, khrPart r, 1⟩]) ∧
    (∀ e es, noneEntries acc = e :: es →
      noneEntries (stepRecord acc r) =
        { e with totalUSD := e.totalUSD + usdPart r,
                 totalKHR := e.totalKHR + khrPart r,
                 recordCount := e.recordCount + 1 } :: es) := by
  constructor
  · intro hnil
    have hnoex : ∀ e ∈ acc, e.categoryId ≠ none := (noneEntries_eq_nil_iff _).mp hnil
    have hany : ¬ acc.any (fun e => decide (e.categoryId = recKey r)) = true := by
      rw [List.any_eq_true]
      rintro ⟨e, he, hke⟩
      exact hnoex e he (hk ▸ of_decide_eq_true hke)
    simp only [stepRecord]
    rw [if_neg (by simpa using hany), hk]
    have hname : recCatName r = "Uncategorized" := by simp [recCatName, hcat]
    have hcolor : recCatColor r = "#808080" := by simp [recCatColor, hcat]
    have happ : noneEntries
        (acc ++ [(⟨none, recCatName r, recCatColor r, 0, 0, 0⟩ : CatAcc)]) =
        [⟨none, recCatName r, recCatColor r, 0, 0, 0⟩] := by
      rw [noneEntries, List.filter_append]
      rw [show List.filter (fun e => decide (e.categoryId = none)) acc = [] from hnil]
      simp
    rw [noneEntries_addToCat_none_cons (usdPart r) (khrPart r) _ _ _ happ, hname, hcolor]
    norm_num
  · intro e es hcons
    have hmem : e ∈ acc := by
      have : e ∈ noneEntries acc := by rw [hcons]; exact List.mem_cons_self e es
      exact (List.mem_filter.mp this).1
    have hkey : e.categoryId = none := by
      have : e ∈ noneEntries acc := by rw [hcons]; exact List.mem_cons_self e es
      exact of_decide_eq_true (List.mem_filter.mp this).2
    have hany : acc.any (fun x => decide (x.categoryId = recKey r)) = true := by
      rw [List.any_eq_true]
      exact ⟨e, hmem, decide_eq_true (by rw [hkey, hk])⟩
    simp only [stepRecord]
    rw [if_pos hany, hk]
    exact noneEntries_addToCat_none_cons (usdPart r) (khrPart r) acc e es hcons

lemma foldl_stepRecord_none :
    ∀ (records : List SRecord) (acc : List CatAcc),
      (∀ r ∈ records, recKey r = none → r.category = none) →
      (noneEntries acc = [] ∨ ∃ e, noneEntries acc = [e] ∧ synthNone e) →
      ((noneEntries (records.foldl stepRecord acc) = [] ∨
        ∃ e, noneEntries (records.foldl stepRecord acc) = [e] ∧ synthNone e) ∧
       ((noneEntries (records.foldl stepRecord acc)).map (fun e => e.recordCount)).sum =
         ((noneEntries acc).map (fun e => e.recordCount)).sum +
           records.countP (fun r => decide (recKey r = none)) ∧
       (noneEntries (records.foldl stepRecord acc) = [] →
         noneEntries acc = [] ∧
           records.countP (fun r => decide (recKey r = none)) = 0)) := by
  intro records
  induction records with
  | nil =>
      intro acc _ ha
      refine ⟨ha, by simp, fun h => ⟨h, by simp⟩⟩
  | cons r rs ih =>
      intro acc hk ha
      by_cases hkey : recKey r = none
      · have hcat : r.category = none := hk r (List.mem_cons_self r rs) hkey
        rcases ha with hnil | ⟨e0, he0, hs0⟩
        · have hstep := (stepRecord_noneEntries_none hkey hcat).1 hnil
          obtain ⟨c1, c2, c3⟩ := ih (stepRecord acc r)
            (fun x hx h => hk x (List.mem_cons_of_mem r hx) h)
            (Or.inr ⟨_, hstep, ⟨rfl, rfl⟩⟩)
          refine ⟨by simpa [List.foldl_cons] using c1, ?_, ?_⟩
          · rw [List.foldl_cons, c2, hstep, hnil]
            simp [List.countP_cons, hkey]
            omega
          · intro hfin
            rw [List.foldl_cons] at hfin
            obtain ⟨h1, _⟩ := c3 hfin
            rw [hstep] at h1
            exact absurd h1 (by simp)
        · have hstep := (stepRecord_noneEntries_none hkey hcat).2 e0 [] he0
          obtain ⟨c1, c2, c3⟩ := ih (stepRecord acc r)
            (fun x hx h => hk x (List.mem_cons_of_mem r hx) h)
            (Or.inr ⟨_, hstep, ⟨hs0.1, hs0.2⟩⟩)
          refine ⟨by simpa [List.foldl_cons] using c1, ?_, ?_⟩
          · rw [List.foldl_cons, c2, hstep, he0]
            simp [List.countP_cons, hkey]
            omega
          · intro hfin
            rw [List.foldl_cons] at hfin
            obtain ⟨h1, _⟩ := c3 hfin
            rw [hstep] at h1
            exact absurd h1 (by simp)
      · obtain ⟨k, hk2⟩ := Option.ne_none_iff_exists'.mp hkey
        have hstep := @stepRecord_noneEntries_some acc _ _ hk2
        obtain ⟨c1, c2, c3⟩ := ih (stepRecord acc r)
          (fun x hx h => hk x (List.mem_cons_of_mem r hx) h)
          (by rw [hstep]; exact ha)
        refine ⟨by simpa [List.foldl_cons] using c1, ?_, ?_⟩
        · rw [List.foldl_cons, c2, hstep]
          simp [List.countP_cons, hkey]
        · intro hfin
          rw [List.foldl_cons] at hfin
          obtain ⟨h1, h2⟩ := c3 hfin
          rw [hstep] at h1
          exact ⟨h1, by simp [List.countP_cons, hkey, h2]⟩

lemma listSum_map_mul_right {α : Type} (l : List α) (f : α → ℚ) (c : ℚ) :
    (l.map (fun a => f a * c)).sum = (l.map f).sum * c := by
  induction l with
  | nil => simp
  | cons a as ih => simp [ih]; ring

lemma listSum_map_add {α : Type} (l : List α) (f g : α → ℚ) :
    (l.map (fun a => f a + g a)).sum = (l.map f).sum + (l.map g).sum := by
  induction l with
  | nil => simp
  | cons a as ih => simp [ih]; ring

lemma toBEntry_percentage (g : ℚ) (c : CatAcc) :
    (toBEntry g c).percentage =
      round2 (if 0 < g then
        (convertToUSD (round2 c.totalUSD) Currency.USD +
         convertToUSD (round2 c.totalKHR) Currency.KHR) / g * 100 else 0) := rfl

lemma round2_zero : round2 0 = 0 := round2_eq_self TwoDec.zero

lemma totalsUSD_twoDec {records : List SRecord}
    (h : ∀ r ∈ records, TwoDec r.amount) : TwoDec (totalsUSD records) := by
  apply twoDec_listSum
  intro q hq
  obtain ⟨r, hr, hrq⟩ := List.mem_map.mp hq
  exact hrq ▸ twoDec_usdPart (h r hr)

lemma totalsKHR_twoDec {records : List SRecord}
    (h : ∀ r ∈ records, TwoDec r.amount) : TwoDec (totalsKHR records) := by
  apply twoDec_listSum
  intro q hq
  obtain ⟨r, hr, hrq⟩ := List.mem_map.mp hq
  exact hrq ▸ twoDec_khrPart (h r hr)

lemma grandTotalUSD_eq_of_twoDec {records : List SRecord}
    (h : ∀ r ∈ records, TwoDec r.amount) :
    grandTotalUSD records = totalsUSD records + totalsKHR records * KHR_TO_USD := by
  rw [grandTotalUSD, convertToUSD, convertToUSD,
      round2_eq_self (totalsUSD_twoDec h), round2_eq_self (totalsKHR_twoDec h)]

lemma buildCategoryMap_entries_twoDec {records : List SRecord}
    (h : ∀ r ∈ records, TwoDec r.amount) :
    ∀ e ∈ buildCategoryMap records, TwoDec e.totalUSD ∧ TwoDec e.totalKHR := by
  rw [buildCategoryMap]
  exact buildCategoryMap_twoDec records [] h (by simp)

/-- C2 amended: for a record set whose amounts are non-negative exact
two-decimal values, the category-breakdown percentages of the monthly
summary sum to 100 up to a rounding error of at most 0.005 per breakdown
entry whenever the USD grand total is non-zero, and every percentage is
exactly 0 when the grand total is zero (no division happens). -/
theorem C2_percentage_sum (records : List SRecord)
    (hpos : ∀ r ∈ records, 0 ≤ r.amount)
    (h2 : ∀ r ∈ records, TwoDec r.amount) :
    (grandTotalUSD records ≠ 0 →
      |((categoryBreakdown records).map (fun e => e.percentage)).sum - 100| ≤
        ((categoryBreakdown records).length : ℚ) * (1/200)) ∧
    (grandTotalUSD records = 0 →
      ∀ e ∈ categoryBreakdown records, e.percentage = 0) := by
  constructor
  · intro hne
    have hgpos : 0 < grandTotalUSD records :=
      lt_of_le_of_ne (grandTotalUSD_nonneg hpos) (Ne.symm hne)
    have hperm : (categoryBreakdown records).Perm
        ((buildCategoryMap records).map (toBEntry (grandTotalUSD records))) := by
      rw [categoryBreakdown]
      exact List.perm_insertionSort _ _
    have hsum : ((categoryBreakdown records).map (fun e => e.percentage)).sum =
        (((buildCategoryMap records).map (toBEntry (grandTotalUSD records))).map
          (fun e => e.percentage)).sum :=
      (hperm.map _).sum_eq
    have hlen : (categoryBreakdown records).length =
        (buildCategoryMap records).length := by
      rw [hperm.length_eq, List.length_map]
    have htd := buildCategoryMap_entries_twoDec h2
    have hmap : ((buildCategoryMap records).map (toBEntry (grandTotalUSD records))).map
          (fun e => e.percentage) =
        ((buildCategoryMap records).map
          (fun a => (a.totalUSD + a.totalKHR * KHR_TO_USD) / grandTotalUSD records * 100)).map
          round2 := by
      rw [List.map_map, List.map_map]
      apply List.map_congr_left
      intro a ha
      show (toBEntry (grandTotalUSD records) a).percentage = _
      rw [toBEntry_percentage, if_pos hgpos, convertToUSD, convertToUSD,
          round2_eq_self (htd a ha).1, round2_eq_self (htd a ha).2]
      rfl
    set L := (buildCategoryMap records).map
      (fun a => (a.totalUSD + a.totalKHR * KHR_TO_USD) / grandTotalUSD records * 100)
      with hL
    have hLsum : L.sum = 100 := by
      rw [hL]
      have hfun : (fun (a : CatAcc) =>
          (a.totalUSD + a.totalKHR * KHR_TO_USD) / grandTotalUSD records * 100) =
          (fun a => (a.totalUSD + a.totalKHR * KHR_TO_USD) *
            (100 / grandTotalUSD records)) := by
        funext a
        field_simp
      rw [hfun, listSum_map_mul_right, listSum_map_add,
          listSum_map_mul_right]
      obtain ⟨s1, s2, _⟩ := buildCategoryMap_sums records
      rw [s1, s2, ← grandTotalUSD_eq_of_twoDec h2]
      field_simp
    have hLlen : L.length = (buildCategoryMap records).length := by
      rw [hL, List.length_map]
    rw [hsum, hmap, ← hLsum, hlen, ← hLlen]
    exact round2_listSum_abs_le L
  · intro h0 e he
    rw [categoryBreakdown] at he
    have hmem : e ∈ (buildCategoryMap records).map (toBEntry (grandTotalUSD records)) :=
      (List.perm_insertionSort _ _).mem_iff.mp he
    obtain ⟨a, _, hae⟩ := List.mem_map.mp hmem
    rw [← hae, toBEntry_percentage, h0]
    simp [round2_zero]

lemma usdPart_usd (a : ℚ) (c : Option SCategory) :
    usdPart ⟨a, Currency.USD, c⟩ = a := rfl

lemma usdPart_khr (a : ℚ) (c : Option SCategory) :
    usdPart ⟨a, Currency.KHR, c⟩ = 0 := rfl

lemma khrPart_usd (a : ℚ) (c : Option SCategory) :
    khrPart ⟨a, Currency.USD, c⟩ = 0 := rfl

lemma khrPart_khr (a : ℚ) (c : Option SCategory) :
    khrPart ⟨a, Currency.KHR, c⟩ = a := rfl

/-- Two records of 0.005 USD in two different categories: each category
subtotal rounds up to 0.01 before the percentage is computed. -/
def rsC2 : List SRecord :=
  [⟨1/200, Currency.USD, some ⟨1, "A", "#111111"⟩⟩,
   ⟨1/200, Currency.USD, some ⟨2, "B", "#222222"⟩⟩]

/-- C2 counterexample: because each category subtotal is rounded to two
decimals before the percentage is computed, the record set rsC2 has a
non-zero grand total of 0.01 USD while its two breakdown percentages are
100 each, summing to 200 — not 100 within any small tolerance. -/
theorem C2_counterexample_subtotal_rounding :
    grandTotalUSD rsC2 = 1/100 ∧ grandTotalUSD rsC2 ≠ 0 ∧
    ((categoryBreakdown rsC2).map (fun e => e.percentage)).sum = 200 := by
  have hg : grandTotalUSD rsC2 = 1/100 := by
    norm_num [grandTotalUSD, totalsUSD, totalsKHR, usdPart_usd, khrPart_usd,
      rsC2, convertToUSD, round2, KHR_TO_USD]
  refine ⟨hg, by rw [hg]; norm_num, ?_⟩
  norm_num [categoryBreakdown, buildCategoryMap, stepRecord, addToCat, recKey,
    recCatName, recCatColor, usdPart_usd, khrPart_usd, rsC2, toBEntry,
    bConverted, bdRel, List.insertionSort, List.orderedInsert, grandTotalUSD,
    totalsUSD, totalsKHR, convertToUSD, round2, KHR_TO_USD, List.foldl]

/-- A well-behaved two-record set: 5 USD and 8000 KHR, both uncategorized. -/
def rsC2w : List SRecord :=
  [⟨5, Currency.USD, none⟩, ⟨8000, Currency.KHR, none⟩]

theorem C2_percentage_sum_witness :
    (∀ r ∈ rsC2w, 0 ≤ r.amount) ∧ (∀ r ∈ rsC2w, TwoDec r.amount) ∧
    grandTotalUSD rsC2w ≠ 0 ∧
    |((categoryBreakdown rsC2w).map (fun e => e.percentage)).sum - 100| ≤
      ((categoryBreakdown rsC2w).length : ℚ) * (1/200) := by
  have hpos : ∀ r ∈ rsC2w, 0 ≤ r.amount := by
    intro r hr
    rcases List.mem_cons.mp hr with h | h
    · rw [h]; norm_num
    · rw [List.mem_singleton.mp h]; norm_num
  have h2 : ∀ r ∈ rsC2w, TwoDec r.amount := by
    intro r hr
    rcases List.mem_cons.mp hr with h | h
    · rw [h]; exact ⟨500, by norm_num⟩
    · rw [List.mem_singleton.mp h]; exact ⟨800000, by norm_num⟩
  have hne : grandTotalUSD rsC2w ≠ 0 := by
    norm_num [grandTotalUSD, totalsUSD, totalsKHR, usdPart_usd, usdPart_khr,
      khrPart_usd, khrPart_khr, rsC2w, convertToUSD, round2, KHR_TO_USD]
  exact ⟨hpos, h2, hne, (C2_percentage_sum rsC2w hpos h2).1 hne⟩

/-- C9: the categoryBreakdown of the monthly summary partitions the month's
records: entry record counts sum to the summary record count exactly; the
rounded entry subtotals sum to the rounded summary totals up to one
two-decimal rounding (0.005) per rounded value; and, provided category ids
are positive (database ids start at 1; a 0 id would be falsy in JS), every
record with a null categoryId is counted in exactly one synthetic
Uncategorized entry with color #808080. -/
theorem C9_breakdown_partition (records : List SRecord) (m y : ℤ) (cur : String)
    (hid : ∀ r ∈ records, ∀ c, r.category = some c → c.id ≠ 0) :
    ((categoryBreakdown records).map (fun e => e.recordCount)).sum =
      (monthSummaryOf m y cur records).recordCount ∧
    |((categoryBreakdown records).map (fun e => e.totalUSD)).sum -
        (monthSummaryOf m y cur records).totalUSD| ≤
      (((categoryBreakdown records).length : ℚ) + 1) * (1/200) ∧
    |((categoryBreakdown records).map (fun e => e.totalKHR)).sum -
        (monthSummaryOf m y cur records).totalKHR| ≤
      (((categoryBreakdown records).length : ℚ) + 1) * (1/200) ∧
    ((∃ r ∈ records, r.category = none) →
      (categoryBreakdown records).countP (fun e => decide (e.categoryId = none)) = 1 ∧
      ∀ e ∈ categoryBreakdown records, e.categoryId = none →
        e.categoryName = "Uncategorized" ∧ e.categoryColor = "#808080" ∧
        e.recordCount = records.countP (fun r => decide (r.category = none))) := by
  have hperm : (categoryBreakdown records).Perm
      ((buildCategoryMap records).map (toBEntry (grandTotalUSD records))) := by
    rw [categoryBreakdown]
    exact List.perm_insertionSort _ _
  obtain ⟨s1, s2, s3⟩ := buildCategoryMap_sums records
  refine ⟨?_, ?_, ?_, ?_⟩
  · rw [(hperm.map _).sum_eq, List.map_map]
    have hfun : ((fun (e : BEntry) => e.recordCount) ∘
        toBEntry (grandTotalUSD records)) = (fun (a : CatAcc) => a.recordCount) := rfl
    rw [hfun, s3]
    rfl
  · rw [(hperm.map _).sum_eq, List.map_map]
    have hfun : ((fun (e : BEntry) => e.totalUSD) ∘
        toBEntry (grandTotalUSD records)) =
        (round2 ∘ (fun (a : CatAcc) => a.totalUSD)) := rfl
    rw [hfun, ← List.map_map]
    set L := (buildCategoryMap records).map (fun a => a.totalUSD) with hL
    have hLsum : L.sum = totalsUSD records := s1
    have hlen : ((categoryBreakdown records).length : ℚ) = (L.length : ℚ) := by
      rw [hperm.length_eq, List.length_map, hL, List.length_map]
    have hms : (monthSummaryOf m y cur records).totalUSD =
        round2 (totalsUSD records) := rfl
    rw [hlen, hms, ← hLsum]
    calc |(L.map round2).sum - round2 L.sum|
        = |((L.map round2).sum - L.sum) + (L.sum - round2 L.sum)| := by
          rw [show (L.map round2).sum - round2 L.sum =
            ((L.map round2).sum - L.sum) + (L.sum - round2 L.sum) by ring]
      _ ≤ |(L.map round2).sum - L.sum| + |L.sum - round2 L.sum| := abs_add _ _
      _ ≤ (L.length : ℚ) * (1/200) + 1/200 := by
          refine add_le_add (round2_listSum_abs_le L) ?_
          rw [abs_sub_comm]
          exact round2_sub_abs_le _
      _ = ((L.length : ℚ) + 1) * (1/200) := by ring
  · rw [(hperm.map _).sum_eq, List.map_map]
    have hfun : ((fun (e : BEntry) => e.totalKHR) ∘
        toBEntry (grandTotalUSD records)) =
        (round2 ∘ (fun (a : CatAcc) => a.totalKHR)) := rfl
    rw [hfun, ← List.map_map]
    set L := (buildCategoryMap records).map (fun a => a.totalKHR) with hL
    have hLsum : L.sum = totalsKHR records := s2
    have hlen : ((categoryBreakdown records).length : ℚ) = (L.length : ℚ) := by
      rw [hperm.length_eq, List.length_map, hL, List.length_map]
    have hms : (monthSummaryOf m y cur records).totalKHR =
        round2 (totalsKHR records) := rfl
    rw [hlen, hms, ← hLsum]
    calc |(L.map round2).sum - round2 L.sum|
        = |((L.map round2).sum - L.sum) + (L.sum - round2 L.sum)| := by
          rw [show (L.map round2).sum - round2 L.sum =
            ((L.map round2).sum - L.sum) + (L.sum - round2 L.sum) by ring]
      _ ≤ |(L.map round2).sum - L.sum| + |L.sum - round2 L.sum| := abs_add _ _
      _ ≤ (L.length : ℚ) * (1/200) + 1/200 := by
          refine add_le_add (round2_listSum_abs_le L) ?_
          rw [abs_sub_comm]
          exact round2_sub_abs_le _
      _ = ((L.length : ℚ) + 1) * (1/200) := by ring
  · rintro ⟨r0, hr0, hc0⟩
    have hk : ∀ r ∈ records, recKey r = none → r.category = none := by
      intro r hr hkey
      cases hc : r.category with
      | none => rfl
      | some c =>
          exfalso
          have hks : recKey r = some c.id := by
            simp [recKey, hc, hid r hr c hc]
          rw [hks] at hkey
          exact Option.some_ne_none _ hkey
    obtain ⟨inv, hsum, hnil⟩ := foldl_stepRecord_none records [] hk (Or.inl rfl)
    have hkey0 : recKey r0 = none := by simp [recKey, hc0]
    have hcpos : 0 < records.countP (fun r => decide (recKey r = none)) :=
      List.countP_pos_iff.mpr ⟨r0, hr0, decide_eq_true hkey0⟩
    have hne : noneEntries (records.foldl stepRecord []) ≠ [] := by
      intro h
      have := (hnil h).2
      omega
    rcases inv with h | ⟨e0, he0, hs0⟩
    · exact absurd h hne
    have hsum0 : e0.recordCount =
        records.countP (fun r => decide (recKey r = none)) := by
      rw [he0] at hsum
      simpa [noneEntries_nil] using hsum
    have hcount_eq : records.countP (fun r => decide (recKey r = none)) =
        records.countP (fun r => decide (r.category = none)) := by
      apply List.countP_congr
      intro r hr
      constructor
      · intro hp
        exact decide_eq_true (hk r hr (of_decide_eq_true hp))
      · intro hq
        exact decide_eq_true (by simp [recKey, of_decide_eq_true hq])
    constructor
    · rw [hperm.countP_eq, List.countP_map]
      have hfun : ((fun (e : BEntry) => decide (e.categoryId = none)) ∘
          toBEntry (grandTotalUSD records)) =
          (fun (a : CatAcc) => decide (a.categoryId = none)) := rfl
      rw [hfun, List.countP_eq_length_filter]
      have hfil : List.filter (fun a => decide (a.categoryId = none))
          (buildCategoryMap records) = noneEntries (records.foldl stepRecord []) := rfl
      rw [hfil, he0]
      rfl
    · intro e he hkeye
      rw [categoryBreakdown] at he
      obtain ⟨a, ha, hae⟩ := List.mem_map.mp ((List.perm_insertionSort _ _).mem_iff.mp he)
      have hka : a.categoryId = none := by
        have hproj : (toBEntry (grandTotalUSD records) a).categoryId = a.categoryId := rfl
        rw [← hae, hproj] at hkeye
        exact hkeye
      have hafil : a ∈ noneEntries (records.foldl stepRecord []) :=
        List.mem_filter.mpr ⟨ha, decide_eq_true hka⟩
      rw [he0] at hafil
      have hae0 : a = e0 := List.mem_singleton.mp hafil
      refine ⟨?_, ?_, ?_⟩
      · rw [← hae]
        show (toBEntry (grandTotalUSD records) a).categoryName = _
        have hproj : (toBEntry (grandTotalUSD records) a).categoryName =
            a.categoryName := rfl
        rw [hproj, hae0]
        exact hs0.1
      · rw [← hae]
        have hproj : (toBEntry (grandTotalUSD records) a).categoryColor =
            a.categoryColor := rfl
        rw [hproj, hae0]
        exact hs0.2
      · rw [← hae]
        have hproj : (toBEntry (grandTotalUSD records) a).recordCount =
            a.recordCount := rfl
        rw [hproj, hae0, hsum0, hcount_eq]

/-- A record set with one categorized and one uncategorized record. -/
def rsC9 : List SRecord :=
  [⟨5, Currency.USD, some ⟨1, "Food", "#ff0000"⟩⟩, ⟨3, Currency.USD, none⟩]

theorem C9_breakdown_partition_witness :
    (∀ r ∈ rsC9, ∀ c, r.category = some c → c.id ≠ 0) ∧
    ((categoryBreakdown rsC9).map (fun e => e.recordCount)).sum =
      (monthSummaryOf 7 2025 "ALL" rsC9).recordCount := by
  have hid : ∀ r ∈ rsC9, ∀ c, r.category = some c → c.id ≠ 0 := by
    intro r hr c hc
    rcases List.mem_cons.mp hr with h | h
    · rw [h] at hc
      injection hc with h2
      rw [← h2]
      norm_num
    · rw [List.mem_singleton.mp h] at hc
      exact absurd hc (by simp)
  exact ⟨hid, (C9_breakdown_partition rsC9 7 2025 "ALL" hid).1⟩

/-! ## Recent average (getRecentAverage, Category.controller.js) -/

/-- A fetched record for the recent-average query (only amount and currency
attributes are selected). -/
structure RARecord where
  amount : ℚ
  currency : Currency
deriving DecidableEq, Repr

/-- One calendar month of the three-month window, with its fetched records. -/
structure MonthInput where
  month : ℤ
  year : ℤ
  records : List RARecord
deriving DecidableEq, Repr

/-- The monthNames array. -/
def monthNames : List String :=
  ["January", "February", "March", "April", "May", "June",
   "July", "August", "September", "October", "November", "December"]

/-- monthTotalUSD: every record of the month converted to USD and summed,
at full precision. -/
def monthTotalUSD (mi : MonthInput) : ℚ :=
  (mi.records.map (fun r => convertToUSD r.amount r.currency)).sum

/-- One element of the recentMonths response array. -/
structure RAMonth where
  month : ℤ
  year : ℤ
  monthName : String
  totalUSD : ℚ
  totalKHR : ℚ
  avgUSD : ℚ
  avgKHR : ℚ
  recordCount : ℕ
  rawUSD : ℚ
  rawKHR : ℚ
deriving DecidableEq, Repr

/-- One iteration of the month loop of getRecentAverage: raw per-currency
totals, the USD month total, the display-currency branches for
totalExpenses (all three derive both figures from the single USD total),
and the per-day averages. -/
def processMonth (displayCurrency : String) (mi : MonthInput) : RAMonth :=
  let monthTotal := monthTotalUSD mi
  let rawU := round2 ((mi.records.map
    (fun r => if r.currency = Currency.USD then r.amount else 0)).sum)
  let rawK := round2 ((mi.records.map
    (fun r => if r.currency = Currency.KHR then r.amount else 0)).sum)
  let totalExpenses : ℚ × ℚ :=
    if displayCurrency == "USD" then
      (round2 monthTotal, round2 (monthTotal * USD_TO_KHR))
    else if displayCurrency == "KHR" then
      let monthTotalKHR := monthTotal * USD_TO_KHR
      (round2 monthTotal, round2 monthTotalKHR)
    else
      (round2 monthTotal, round2 (monthTotal * USD_TO_KHR))
  let days : ℚ := ((daysInMonth mi.year mi.month : ℕ) : ℚ)
  ⟨mi.month, mi.year, monthNames.getD (mi.month - 1).toNat "",
   totalExpenses.1, totalExpenses.2,
   round2 (totalExpenses.1 / days), round2 (totalExpenses.2 / days),
   mi.records.length, rawU, rawK⟩

/-- The recent-average response body. -/
structure RAResult where
  displayCurrency : String
  recentMonths : List RAMonth
  overallAvgUSD : ℚ
  overallAvgKHR : ℚ
deriving DecidableEq, Repr

/-- getRecentAverage over a given list of months: per-month outputs, the
accumulated day count and USD total, and the overall day-weighted average
rounded at the end. -/
def getRecentAverage (displayCurrency : String)
    (months : List MonthInput) : RAResult :=
  let recentMonths := months.map (processMonth displayCurrency)
  let totalDays : ℚ :=
    (((months.map (fun mi => daysInMonth mi.year mi.month)).sum : ℕ) : ℚ)
  let overallTotalsUSD := (months.map monthTotalUSD).sum
  ⟨displayCurrency, recentMonths,
   round2 (overallTotalsUSD / totalDays),
   round2 (overallTotalsUSD * USD_TO_KHR / totalDays)⟩

/-- February 2025 (28 days) with a single 28 USD record. -/
def raFeb25 : MonthInput := ⟨2, 2025, [⟨28, Currency.USD⟩]⟩

/-- March 2025 (31 days), empty. -/
def raMar25 : MonthInput := ⟨3, 2025, []⟩

/-- April 2025 (30 days), empty. -/
def raApr25 : MonthInput := ⟨4, 2025, []⟩

/-- C3: for every choice of the three months, the recent-average overall
USD figure is the rounded quotient of the sum of the three months' USD
totals by the sum of the three months' actual day counts, and the KHR
figure is that quotient times 4000 (then rounded); on the concrete
28/31/30-day window with unequal totals the result differs from the
arithmetic mean of the three per-month daily averages. -/
theorem C3_recent_average_day_weighted :
    (∀ (dc : String) (m1 m2 m3 : MonthInput),
      (getRecentAverage dc [m1, m2, m3]).overallAvgUSD =
        round2 ((monthTotalUSD m1 + monthTotalUSD m2 + monthTotalUSD m3) /
          (((daysInMonth m1.year m1.month + daysInMonth m2.year m2.month +
             daysInMonth m3.year m3.month : ℕ) : ℚ))) ∧
      (getRecentAverage dc [m1, m2, m3]).overallAvgKHR =
        round2 (((monthTotalUSD m1 + monthTotalUSD m2 + monthTotalUSD m3) /
          (((daysInMonth m1.year m1.month + daysInMonth m2.year m2.month +
             daysInMonth m3.year m3.month : ℕ) : ℚ))) * 4000)) ∧
    (getRecentAverage "BOTH" [raFeb25, raMar25, raApr25]).overallAvgUSD ≠
      (((getRecentAverage "BOTH" [raFeb25, raMar25, raApr25]).recentMonths.map
        (fun mo => mo.avgUSD)).sum) / 3 := by
  constructor
  · intro dc m1 m2 m3
    constructor
    · show round2 _ = round2 _
      congr 1
      simp [List.sum_cons]
      ring_nf
    · show round2 _ = round2 _
      congr 1
      rw [USD_TO_KHR]
      simp [List.sum_cons]
      ring_nf
  · intro hcontra
    rw [show (getRecentAverage "BOTH" [raFeb25, raMar25, raApr25]).overallAvgUSD =
        round2 (28 / 89) by
      norm_num [getRecentAverage, monthTotalUSD, raFeb25, raMar25, raApr25,
        convertToUSD, daysInMonth, isLeapYear]] at hcontra
    rw [show ((getRecentAverage "BOTH" [raFeb25, raMar25, raApr25]).recentMonths.map
        (fun mo => mo.avgUSD)).sum = 1 by
      norm_num [getRecentAverage, processMonth, monthTotalUSD, raFeb25, raMar25,
        raApr25, convertToUSD, daysInMonth, isLeapYear, round2,
        USD_TO_KHR]] at hcontra
    rw [round2] at hcontra
    norm_num at hcontra

lemma processMonth_const (dc : String) (mi : MonthInput) :
    processMonth dc mi = processMonth "BOTH" mi := by
  simp only [processMonth]
  split_ifs <;> rfl

/-- C10: for a fixed record set, running getRecentAverage with any two of
the display currencies USD, KHR, BOTH yields identical recentMonths arrays
and identical overall averages; the displayCurrency input only shows up in
the echoed displayCurrency field. -/
theorem C10_display_currency_noninterference (months : List MonthInput)
    (dc1 dc2 : String)
    (_h1 : dc1 ∈ ["USD", "KHR", "BOTH"]) (_h2 : dc2 ∈ ["USD", "KHR", "BOTH"]) :
    (getRecentAverage dc1 months).recentMonths =
      (getRecentAverage dc2 months).recentMonths ∧
    (getRecentAverage dc1 months).overallAvgUSD =
      (getRecentAverage dc2 months).overallAvgUSD ∧
    (getRecentAverage dc1 months).overallAvgKHR =
      (getRecentAverage dc2 months).overallAvgKHR ∧
    (∀ dc : String, (getRecentAverage dc months).displayCurrency = dc) := by
  have hmap : ∀ dc : String, months.map (processMonth dc) =
      months.map (processMonth "BOTH") :=
    fun dc => List.map_congr_left (fun mi _ => processMonth_const dc mi)
  refine ⟨?_, rfl, rfl, fun _ => rfl⟩
  show months.map (processMonth dc1) = months.map (processMonth dc2)
  rw [hmap dc1, hmap dc2]

theorem C10_display_currency_noninterference_witness :
    ("USD" ∈ ["USD", "KHR", "BOTH"] ∧ "KHR" ∈ ["USD", "KHR", "BOTH"]) ∧
    (getRecentAverage "USD" [raFeb25, raMar25, raApr25]).recentMonths =
      (getRecentAverage "KHR" [raFeb25, raMar25, raApr25]).recentMonths := by
  refine ⟨⟨by simp, by simp⟩, ?_⟩
  exact (C10_display_currency_noninterference [raFeb25, raMar25, raApr25]
    "USD" "KHR" (by simp) (by simp)).1

/-! ## Top 5 expenses (getTop5Expenses, Category.controller.js) -/

/-- A fetched record for the top-5 query. -/
structure TopRecord where
  id : ℕ
  title : String
  amount : ℚ
  currency : Currency
  date : String
  category : Option SCategory
deriving DecidableEq, Repr

/-- A top5Expenses response entry (the internal sort key removed). -/
structure Top5Entry where
  id : ℕ
  title : String
  amount : ℚ
  originalAmount : ℚ
  originalCurrency : Currency
  date : String
  categoryName : String
  categoryColor : String
deriving DecidableEq, Repr

/-- An intermediate entry still carrying the convertedAmount sort key. -/
structure Top5EntryConv where
  id : ℕ
  title : String
  amount : ℚ
  originalAmount : ℚ
  originalCurrency : Currency
  date : String
  categoryName : String
  categoryColor : String
  convertedAmount : ℚ
deriving DecidableEq, Repr

/-- The conversion of a record amount into the requested display currency:
identity when the native currency matches, via convertToUSD for USD, via
USD then times 4000 for KHR, identity otherwise. -/
def convertForDisplay (displayCurrency : String) (amount : ℚ) (c : Currency) : ℚ :=
  if currencyStr c == displayCurrency then amount
  else if displayCurrency == "USD" then convertToUSD amount c
  else if displayCurrency == "KHR" then convertToUSD amount c * USD_TO_KHR
  else amount

/-- The map step of getTop5Expenses, building one entry with the converted
amount (rounded for display, unrounded as the sort key). -/
def toConvEntry (dc : String) (r : TopRecord) : Top5EntryConv :=
  let convertedAmount := convertForDisplay dc r.amount r.currency
  ⟨r.id, r.title, round2 convertedAmount, r.amount, r.currency, r.date,
   (match r.category with
    | some c => if c.name = "" then "Uncategorized" else c.name
    | none => "Uncategorized"),
   (match r.category with
    | some c => if c.color = "" then "#808080" else c.color
    | none => "#808080"),
   convertedAmount⟩

/-- Removing the convertedAmount field from the final response. -/
def stripConv (e : Top5EntryConv) : Top5Entry :=
  ⟨e.id, e.title, e.amount, e.originalAmount, e.originalCurrency, e.date,
   e.categoryName, e.categoryColor⟩

/-- The sort comparison of getTop5Expenses: descending by converted amount. -/
def tRel (a b : Top5EntryConv) : Prop := b.convertedAmount ≤ a.convertedAmount

instance : DecidableRel tRel :=
  fun a b => inferInstanceAs (Decidable (b.convertedAmount ≤ a.convertedAmount))

instance : IsTotal Top5EntryConv tRel :=
  ⟨fun a b => le_total b.convertedAmount a.convertedAmount⟩

instance : IsTrans Top5EntryConv tRel :=
  ⟨fun _ _ _ hab hbc => le_trans hbc hab⟩

/-- top5Expenses: convert, sort descending by converted amount, keep the
first 5, strip the sort key. -/
def top5Expenses (dc : String) (records : List TopRecord) : List Top5Entry :=
  (((List.insertionSort tRel (records.map (toConvEntry dc))).take 5).map stripConv)

/-- Eight records whose USD-converted values are 10, 50, 5, 90, 20, 90, 1,
30 (ids 1 through 8, the two 90s at ids 4 and 6). -/
def rsC4 : List TopRecord :=
  [⟨1, "r1", 10, Currency.USD, "2025-07-01", none⟩,
   ⟨2, "r2", 50, Currency.USD, "2025-07-02", none⟩,
   ⟨3, "r3", 5, Currency.USD, "2025-07-03", none⟩,
   ⟨4, "r4", 90, Currency.USD, "2025-07-04", none⟩,
   ⟨5, "r5", 20, Currency.USD, "2025-07-05", none⟩,
   ⟨6, "r6", 90, Currency.USD, "2025-07-06", none⟩,
   ⟨7, "r7", 1, Currency.USD, "2025-07-07", none⟩,
   ⟨8, "r8", 30, Currency.USD, "2025-07-08", none⟩]

/-- The first three of the eight tie-test records. -/
def rsC4small : List TopRecord :=
  [⟨1, "r1", 10, Currency.USD, "2025-07-01", none⟩,
   ⟨2, "r2", 50, Currency.USD, "2025-07-02", none⟩,
   ⟨3, "r3", 5, Currency.USD, "2025-07-03", none⟩]

/-- C4: top5Expenses returns exactly min(5, n) entries, in descending order
of the amount converted into the requested display currency; on the
concrete tie case both records of converted value 90 (ids 4 and 6) are
among the 5 returned entries; and when at most 5 records are in the window
the returned ids are a permutation of all record ids. -/
theorem C4_top5_ranking (dc : String) (records : List TopRecord) :
    (top5Expenses dc records).length = min 5 records.length ∧
    ((top5Expenses dc records).map
      (fun e => convertForDisplay dc e.originalAmount e.originalCurrency)).Sorted
        (fun a b => b ≤ a) ∧
    ((top5Expenses "USD" rsC4).length = 5 ∧
      (∃ e ∈ top5Expenses "USD" rsC4, e.id = 4) ∧
      (∃ e ∈ top5Expenses "USD" rsC4, e.id = 6)) ∧
    (records.length ≤ 5 →
      ((top5Expenses dc records).map (fun e => e.id)).Perm
        (records.map (fun r => r.id))) := by
  have hperm : (List.insertionSort tRel (records.map (toConvEntry dc))).Perm
      (records.map (toConvEntry dc)) := List.perm_insertionSort _ _
  refine ⟨?_, ?_, ?_, ?_⟩
  · rw [top5Expenses, List.length_map, List.length_take, hperm.length_eq,
        List.length_map]
  · rw [top5Expenses, List.map_map]
    have hcongr : ((List.insertionSort tRel (records.map (toConvEntry dc))).take 5).map
        ((fun e => convertForDisplay dc e.originalAmount e.originalCurrency) ∘ stripConv) =
        ((List.insertionSort tRel (records.map (toConvEntry dc))).take 5).map
        (fun e => e.convertedAmount) := by
      apply List.map_congr_left
      intro e he
      have hmem : e ∈ records.map (toConvEntry dc) :=
        hperm.mem_iff.mp ((List.take_sublist 5 _).mem he)
      obtain ⟨r, _, hre⟩ := List.mem_map.mp hmem
      rw [← hre]
      rfl
    rw [hcongr]
    have hsorted : List.Sorted tRel
        (List.insertionSort tRel (records.map (toConvEntry dc))) :=
      List.sorted_insertionSort _ _
    have htake : ((List.insertionSort tRel (records.map (toConvEntry dc))).take 5).Pairwise
        tRel := hsorted.sublist (List.take_sublist 5 _)
    exact htake.map _ (fun a b hab => hab)
  · refine ⟨?_, ?_, ?_⟩
    · norm_num [top5Expenses, rsC4, toConvEntry, convertForDisplay, currencyStr,
        List.insertionSort, List.orderedInsert, tRel]
    · norm_num [top5Expenses, rsC4, toConvEntry, convertForDisplay, currencyStr,
        List.insertionSort, List.orderedInsert, tRel, stripConv, round2]
    · norm_num [top5Expenses, rsC4, toConvEntry, convertForDisplay, currencyStr,
        List.insertionSort, List.orderedInsert, tRel, stripConv, round2]
  · intro hlen
    have hlen2 : (List.insertionSort tRel (records.map (toConvEntry dc))).length ≤ 5 := by
      rw [hperm.length_eq, List.length_map]
      exact hlen
    rw [top5Expenses, List.take_of_length_le hlen2, List.map_map]
    have h1 : ((fun (e : Top5Entry) => e.id) ∘ stripConv) =
        (fun (e : Top5EntryConv) => e.id) := rfl
    rw [h1]
    have h2 := hperm.map (fun (e : Top5EntryConv) => e.id)
    rw [List.map_map] at h2
    exact h2

theorem C4_top5_ranking_witness :
    rsC4small.length ≤ 5 ∧
    ((top5Expenses "USD" rsC4small).map (fun e => e.id)).Perm
      (rsC4small.map (fun r => r.id)) :=
  ⟨by norm_num [rsC4small],
   (C4_top5_ranking "USD" rsC4small).2.2.2 (by norm_num [rsC4small])⟩
